import Mathlib

/-!
Shallow embedding of the authorization / visibility / soft-delete core of the
CMSC128 collaborative to-do web application.

The repository carries two complete server implementations of the same REST
surface, and both are cited by the specification:

* `src/backend/routes/api.routes.js` with the Mongoose models in
  `src/backend/models/` — referred to here with the suffix `_backend`.
  Its Task model carries an in-place tombstone (`isDeleted : Bool`,
  `deletedAt : Date`).
* the single-file serverless server (`src/unnamed/part_003`) — referred to
  here with the suffix `_serverless`.  Its Task schema has no tombstone
  fields; deletion removes the Task record and writes a separate
  `DeletedTask` document.

Ids (Mongo ObjectIds) are modelled as `Nat`; id equality on documents is the
string equality the handlers perform.  Mongoose collections are lists of
records; `findById` is `List.find?` on the id; `save` after mutating a fetched
document is modelled as updating every record with that id (ids are unique in
the store, so this coincides with updating the fetched document).
-/

namespace TodoApp

/-- A Group document: `GroupSchema` (identical in `group.model.js` and in the
serverless file): name, `type ∈ {"personal", "collab"}` (default "personal"),
owner, collaborator id list (Mongoose default: empty list). -/
structure Group where
  gid : Nat
  name : String
  type_ : String
  owner : Nat
  collaborators : List Nat
deriving DecidableEq

/-- A Task document: `TaskSchema` from `src/backend/models/task.model.js`.
The serverless schema is identical except that it lacks the two tombstone
fields `isDeleted` / `deletedAt`; serverless handlers never read or write
them, so sharing the structure is harmless. -/
structure Task where
  tid : Nat
  name : String
  date : String
  time : String
  priority : String
  done : Bool
  createdAt : Nat
  owner : Nat
  group : Option Nat
  isDeleted : Bool
  deletedAt : Option Nat
deriving DecidableEq

/-- A User document (`user.model.js` / serverless `UserSchema`): the fields
relevant to the API core are the id and the unique email. -/
structure User where
  uid : Nat
  name : String
  email : String
deriving DecidableEq

/-- A DeletedTask tombstone (serverless `DeletedTaskSchema`): full copy of the
task, the acting owner, and an expiry stamp defaulted to creation + 10
minutes, enforced only by a storage-layer TTL index. -/
structure DeletedTask where
  taskData : Task
  owner : Nat
  expiresAt : Nat
deriving DecidableEq

/-- The persistent store: the four Mongo collections. -/
structure DB where
  users : List User
  groups : List Group
  tasks : List Task
  deletedTasks : List DeletedTask
deriving DecidableEq

/-- `Task.findById` -/
def findTask (db : DB) (tid : Nat) : Option Task :=
  db.tasks.find? (fun t => t.tid == tid)

/-- `Group.findById` -/
def findGroup (db : DB) (gid : Nat) : Option Group :=
  db.groups.find? (fun g => g.gid == gid)

/-- Persist a mutation of the task document with the given id (`task.save()`
after in-place field assignments on the fetched document). -/
def updateWhere (tid : Nat) (f : Task → Task) (ts : List Task) : List Task :=
  ts.map (fun t => if t.tid == tid then f t else t)

/-- Groups visible to a user — the query
`Group.find({ $or: [{ owner: userId }, { collaborators: userId }] })`,
issued verbatim by both implementations of GET /api/data and of
DELETE /completed. -/
def visibleGroups (db : DB) (userId : Nat) : List Group :=
  db.groups.filter (fun g => g.owner == userId || g.collaborators.contains userId)

/-- `const groupIds = userGroups.map(g => g._id)` -/
def visibleGroupIds (db : DB) (userId : Nat) : List Nat :=
  (visibleGroups db userId).map (fun g => g.gid)

/-- The Mongo clause `{ group: { $in: groupIds } }`: a null group reference
matches no ObjectId in the list. -/
def groupVisible (db : DB) (userId : Nat) (og : Option Nat) : Bool :=
  match og with
  | some g => (visibleGroupIds db userId).contains g
  | none => false

/-- Task list returned by GET /api/data in `api.routes.js`: tasks with
`isDeleted: false` and (owned-and-ungrouped, or in a visible group). -/
def getDataTasks_backend (db : DB) (userId : Nat) : List Task :=
  db.tasks.filter (fun t =>
    !t.isDeleted &&
    ((t.owner == userId && t.group == none) || groupVisible db userId t.group))

/-- Task list returned by GET /api/data in the serverless file:
`Task.find({ $or: [{ owner: userId }, { group: { $in: groupIds } }] })`
(no tombstone filter — that schema stores only live tasks). -/
def getDataTasks_serverless (db : DB) (userId : Nat) : List Task :=
  db.tasks.filter (fun t => t.owner == userId || groupVisible db userId t.group)

/-- Order-sensitive record of the persistence writes a handler performs. -/
inductive Effect where
  | ungroupTasks (gid : Nat)
  | removeGroup (gid : Nat)
deriving DecidableEq

/-- POST /api/groups in `api.routes.js`: `new Group({ name, type, owner })` —
the schema defaults `collaborators` to the empty list, so no owner is seeded
for any kind.  `gid` is the ObjectId minted by the store. -/
def createGroup_backend (name type_ : String) (owner gid : Nat) : Group :=
  { gid := gid, name := name, type_ := type_, owner := owner, collaborators := [] }

/-- POST /api/groups in the serverless file:
`collaborators: type === "collab" ? [req.userId] : []`. -/
def createGroup_serverless (name type_ : String) (owner gid : Nat) : Group :=
  { gid := gid, name := name, type_ := type_, owner := owner,
    collaborators := if type_ == "collab" then [owner] else [] }

/-- JavaScript truthiness filter used by `if (name) ...` / `if (type) ...` in
the serverless PUT /api/groups/:id: a present-but-empty string behaves like an
absent field. -/
def truthy (s : Option String) : Option String :=
  match s with
  | some v => if v == "" then none else some v
  | none => none

/-- Per-document effect of the serverless PUT /api/groups/:id handler on the
group it fetched with `findOne({ _id, owner })`: optionally rename and retype;
retyping to "personal" clears the collaborator list, retyping to "collab"
appends the acting owner if absent. -/
def applyGroupUpdate (userId : Nat) (nameField typeField : Option String) (g : Group) : Group :=
  let g1 : Group :=
    { g with
      name := (truthy nameField).getD g.name
      type_ := (truthy typeField).getD g.type_ }
  if typeField == some "personal" then
    { g1 with collaborators := [] }
  else if typeField == some "collab" then
    (if g1.collaborators.contains userId then g1
     else { g1 with collaborators := g1.collaborators ++ [userId] })
  else g1

/-- PUT /api/groups/:id (serverless): 404 unless a group with this id is owned
by the caller; otherwise rename/retype it per `applyGroupUpdate`. -/
def updateGroup_serverless (db : DB) (gid userId : Nat)
    (nameField typeField : Option String) : Except Nat DB :=
  match db.groups.find? (fun g => g.gid == gid && g.owner == userId) with
  | none => .error 404
  | some _ =>
    .ok { db with groups := db.groups.map (fun g =>
            if g.gid == gid && g.owner == userId then
              applyGroupUpdate userId nameField typeField g
            else g) }

/-- `Task.updateMany({ group: gid }, { group: null })` — null the group field
of every task referencing the group, touching nothing else. -/
def ungroupTasksIn (gid : Nat) (ts : List Task) : List Task :=
  ts.map (fun t => if t.group == some gid then { t with group := none } else t)

/-- DELETE /api/groups/:id in `api.routes.js`: 404 if absent, 401 if the
caller is not the owner; then `Task.updateMany({ group }, { group: null })`
followed by `group.deleteOne()`.  The effect trace records that write order. -/
def deleteGroup_backend (db : DB) (gid userId : Nat) : Except Nat (DB × List Effect) :=
  match findGroup db gid with
  | none => .error 404
  | some g =>
    if g.owner != userId then .error 401
    else
      let db1 : DB := { db with tasks := ungroupTasksIn gid db.tasks }
      let db2 : DB := { db1 with groups := db1.groups.filter (fun g2 => g2.gid != gid) }
      .ok (db2, [Effect.ungroupTasks gid, Effect.removeGroup gid])

/-- DELETE /api/groups/:id in the serverless file:
`Group.findOneAndDelete({ _id, owner })` (403 when it matches nothing), and
only afterwards `Task.updateMany({ group: id }, { group: null })`. -/
def deleteGroup_serverless (db : DB) (gid userId : Nat) : Except Nat (DB × List Effect) :=
  match db.groups.find? (fun g => g.gid == gid && g.owner == userId) with
  | none => .error 403
  | some _ =>
    let db1 : DB := { db with groups := db.groups.filter (fun g2 => g2.gid != gid) }
    let db2 : DB := { db1 with tasks := ungroupTasksIn gid db1.tasks }
    .ok (db2, [Effect.removeGroup gid, Effect.ungroupTasks gid])

/-- POST /api/groups/:id/collaborators in `api.routes.js`: 404 if the group is
absent, 401 unless the caller is the owner, 404 if no user has the email
(lower-cased), 400 if the target is already listed; otherwise push the target
onto the collaborator list.  Every failure occurs before any write. -/
def addCollaborator_backend (db : DB) (gid userId : Nat) (email : String) : Except Nat DB :=
  match findGroup db gid with
  | none => .error 404
  | some g =>
    if g.owner != userId then .error 401
    else match db.users.find? (fun u => u.email == email.toLower) with
      | none => .error 404
      | some target =>
        if g.collaborators.contains target.uid then .error 400
        else .ok { db with groups := db.groups.map (fun g2 =>
                     if g2.gid == gid then
                       { g2 with collaborators := g2.collaborators ++ [target.uid] }
                     else g2) }

/-- Per-document effect of the serverless
`Group.updateOne({ _id, type: "collab" }, { $addToSet: { collaborators } })`:
an atomic add-if-absent that silently skips non-collab groups. -/
def addToSetCollab (gid target : Nat) (g : Group) : Group :=
  if g.gid == gid && g.type_ == "collab" then
    (if g.collaborators.contains target then g
     else { g with collaborators := g.collaborators ++ [target] })
  else g

/-- POST /api/groups/:id/collaborators in the serverless file.  The acting
user is never compared with the group owner.  404 if no user has the email;
reading `.owner` of a missing group throws (modelled as a 500); 400 if the
target IS the owner; otherwise the `$addToSet` write above is issued. -/
def addCollaborator_serverless (db : DB) (gid userId : Nat) (email : String) : Except Nat DB :=
  match db.users.find? (fun u => u.email == email) with
  | none => .error 404
  | some target =>
    match findGroup db gid with
    | none => .error 500
    | some g =>
      if g.owner == target.uid then .error 400
      else .ok { db with groups := db.groups.map (addToSetCollab gid target.uid) }

/-- Per-document effect of `group.collaborators.pull(targetUser)` followed by
`group.save()`: every occurrence of the target is removed. -/
def pullCollaborator (gid target : Nat) (g : Group) : Group :=
  if g.gid == gid then
    { g with collaborators := g.collaborators.filter (fun c => c != target) }
  else g

/-- DELETE /api/groups/:groupId/collaborators/:userId (serverless): 404 if the
group is absent; allowed for the owner or for self-removal, 403 otherwise;
the pull above is applied — note the owner may remove themselves. -/
def removeCollaborator_serverless (db : DB) (gid actingUser targetUser : Nat) : Except Nat DB :=
  match findGroup db gid with
  | none => .error 404
  | some g =>
    if g.owner != actingUser && actingUser != targetUser then .error 403
    else .ok { db with groups := db.groups.map (pullCollaborator gid targetUser) }

/-- The §3 membership invariant: a personal-kind group has no collaborators;
a collaborative-kind group lists its owner among them. -/
def groupInvariant (g : Group) : Prop :=
  (g.type_ = "personal" → g.collaborators = []) ∧
  (g.type_ = "collab" → g.owner ∈ g.collaborators)

/-- The optional fields a PUT /api/tasks/:id request body may carry.
`groupId = some none` is a present-but-empty/null group field;
`groupId = some (some g)` assigns group g; `groupId = none` omits the field. -/
structure UpdateReq where
  name : Option String := none
  date : Option String := none
  time : Option String := none
  priority : Option String := none
  done : Option Bool := none
  groupId : Option (Option Nat) := none
deriving DecidableEq

/-- Field-wise effect of the backend PUT /api/tasks/:id on the stored task:
each provided field overwrites the stored one.  The handler assigns
`task.groupId`, which is not a schema path of the Task model, so Mongoose
strict mode discards it on save and the stored `group` is never modified by
this route. -/
def applyTaskUpdate_backend (req : UpdateReq) (t : Task) : Task :=
  { t with
    name := req.name.getD t.name
    date := req.date.getD t.date
    time := req.time.getD t.time
    priority := req.priority.getD t.priority
    done := req.done.getD t.done }

/-- Field-wise effect of the serverless PUT /api/tasks/:id (`findByIdAndUpdate`
with exactly the provided fields): same as the backend update, except that a
provided `groupId` does become the stored `group` (`groupId || null` maps an
empty value to null). -/
def applyTaskUpdate_serverless (req : UpdateReq) (t : Task) : Task :=
  { applyTaskUpdate_backend req t with
    group := match req.groupId with
             | none => t.group
             | some g => g }

/-- PUT /api/tasks/:id in `api.routes.js`.  No permission check is performed:
`userId` (the authenticated caller) is never consulted. -/
def updateTask_backend (db : DB) (userId tid : Nat) (req : UpdateReq) : Except Nat DB :=
  match findTask db tid with
  | none => .error 404
  | some _ => .ok { db with tasks := updateWhere tid (applyTaskUpdate_backend req) db.tasks }

/-- PUT /api/tasks/:id in the serverless file.  No permission check either;
a missing task throws on `task.toObject()` (modelled as a 500). -/
def updateTask_serverless (db : DB) (userId tid : Nat) (req : UpdateReq) : Except Nat DB :=
  match findTask db tid with
  | none => .error 500
  | some _ => .ok { db with tasks := updateWhere tid (applyTaskUpdate_serverless req) db.tasks }

/-- The field mutation the backend soft-delete performs on a task document:
`isDeleted = true; deletedAt = Date.now()`. -/
def tombstone (now : Nat) (t : Task) : Task :=
  { t with isDeleted := true, deletedAt := some now }

/-- The field mutation the backend undo performs on a task document:
`isDeleted = false; deletedAt = null`. -/
def reactivate (t : Task) : Task :=
  { t with isDeleted := false, deletedAt := none }

/-- DELETE /api/tasks/:id in `api.routes.js` (soft delete): 404 if absent,
otherwise set `isDeleted = true`, `deletedAt = Date.now()` and save.  No
ownership or membership check. -/
def deleteTask_backend (db : DB) (userId tid now : Nat) : Except Nat DB :=
  match findTask db tid with
  | none => .error 404
  | some _ => .ok { db with tasks := updateWhere tid (tombstone now) db.tasks }

/-- POST /api/tasks/:id/undo in `api.routes.js`: 404 if absent, otherwise set
`isDeleted = false`, `deletedAt = null` and save.  Neither the caller identity
nor the clock (`now`, the request arrival time) is consulted: there is no
expiry comparison anywhere in the handler. -/
def undoTask_backend (db : DB) (userId tid now : Nat) : Except Nat DB :=
  match findTask db tid with
  | none => .error 404
  | some _ => .ok { db with tasks := updateWhere tid reactivate db.tasks }

/-- The filter of DELETE /api/completed in `api.routes.js`: done, not yet
tombstoned, and visible (owned-ungrouped or in a visible group). -/
def clearFilter_backend (db : DB) (userId : Nat) (t : Task) : Bool :=
  t.done && !t.isDeleted &&
  ((t.owner == userId && t.group == none) || groupVisible db userId t.group)

/-- DELETE /api/completed in `api.routes.js`: `updateMany` soft-deleting every
task matching `clearFilter_backend` — an in-place flag set, destroying
nothing. -/
def clearCompleted_backend (db : DB) (userId now : Nat) : DB :=
  { db with tasks := db.tasks.map (fun t =>
      if clearFilter_backend db userId t then tombstone now t else t) }

/-- DELETE /api/tasks/completed in the serverless file:
`Task.deleteMany({ owner: req.userId, done: true })` — a hard delete of the
caller's own completed tasks (grouped or not), writing no tombstone. -/
def clearCompleted_serverless (db : DB) (userId : Nat) : DB :=
  { db with tasks := db.tasks.filter (fun t => !(t.owner == userId && t.done)) }

/-! Concrete store states used to evaluate the handlers on small inputs. -/

/-- A task record with the schema defaults (`done: false`, `priority` default,
no group, not tombstoned); the explicit fields vary per scenario. -/
def mkTask (tid : Nat) (owner : Nat) (group : Option Nat) : Task :=
  { tid := tid, name := "task", date := "", time := "", priority := "Low",
    done := false, createdAt := 0, owner := owner, group := group,
    isDeleted := false, deletedAt := none }

/-- User 1 owns group 10 (no collaborators); user 2 owns task 100 inside
group 10.  Task 100 is visible to user 1 through the shared group. -/
def dbW1 : DB :=
  { users := [{ uid := 1, name := "Alice", email := "a@x.com" },
              { uid := 2, name := "Bob", email := "b@x.com" }],
    groups := [{ gid := 10, name := "Team", type_ := "collab", owner := 1,
                 collaborators := [] }],
    tasks := [mkTask 100 2 (some 10)],
    deletedTasks := [] }

/-- Group 20 is owned by user 2 alone; task 200 is an Active task owned by
user 1 but assigned to group 20, which user 1 cannot see. -/
def dbC2 : DB :=
  { users := [{ uid := 1, name := "Alice", email := "a@x.com" },
              { uid := 2, name := "Bob", email := "b@x.com" }],
    groups := [{ gid := 20, name := "Private", type_ := "personal", owner := 2,
                 collaborators := [] }],
    tasks := [mkTask 200 1 (some 20)],
    deletedTasks := [] }

/-- Task 300 is owned by user 2, ungrouped; there are no groups at all, so
user 1 has no relationship whatsoever to the task. -/
def dbC3 : DB :=
  { users := [{ uid := 1, name := "Alice", email := "a@x.com" },
              { uid := 2, name := "Bob", email := "b@x.com" }],
    groups := [],
    tasks := [mkTask 300 2 none],
    deletedTasks := [] }

/-- The update request user 1 sends against task 300: only a new name. -/
def reqC3 : UpdateReq := { name := some "hijacked" }

/-- Task 400 was tombstoned at time 0, so its undo window ends at time
600000 (10 minutes). -/
def dbC4 : DB :=
  { users := [{ uid := 1, name := "Alice", email := "a@x.com" }],
    groups := [],
    tasks := [{ mkTask 400 1 none with isDeleted := true, deletedAt := some 0 }],
    deletedTasks := [] }

/-- An Active task with every optional field populated, for exercising the
soft-delete / undo round trip. -/
def taskC5 : Task :=
  { tid := 500, name := "Ship v1", date := "2025-06-01", time := "12:30",
    priority := "Mid", done := true, createdAt := 77, owner := 1,
    group := some 10, isDeleted := false, deletedAt := none }

def dbC5 : DB :=
  { users := [{ uid := 1, name := "Alice", email := "a@x.com" }],
    groups := [{ gid := 10, name := "Home", type_ := "personal", owner := 1,
                 collaborators := [] }],
    tasks := [taskC5],
    deletedTasks := [] }

/-- Group 60 (owned by user 2) holds task 600; used to trace the write order
of the two group-deletion handlers. -/
def dbC6 : DB :=
  { users := [{ uid := 2, name := "Bob", email := "b@x.com" }],
    groups := [{ gid := 60, name := "Sprint", type_ := "collab", owner := 2,
                 collaborators := [2] }],
    tasks := [mkTask 600 2 (some 60)],
    deletedTasks := [] }

/-- Task 700: priority Low, a due date, and a group — the spec's example for
a partial update that supplies only a new priority. -/
def dbC7 : DB :=
  { users := [{ uid := 1, name := "Alice", email := "a@x.com" }],
    groups := [{ gid := 10, name := "Home", type_ := "personal", owner := 1,
                 collaborators := [] }],
    tasks := [{ mkTask 700 1 (some 10) with priority := "Low", date := "2025-03-03" }],
    deletedTasks := [] }

/-- The spec's example request: `{ priority: "High" }` and nothing else. -/
def reqC7 : UpdateReq := { priority := some "High" }

/-- Group 80 is shared between owner 1 and collaborator 2.  Task 800 is a
completed task owned by user 2 inside the shared group; task 801 is a
completed ungrouped task owned by user 1.  Both are visible to user 1. -/
def dbC8 : DB :=
  { users := [{ uid := 1, name := "Alice", email := "a@x.com" },
              { uid := 2, name := "Bob", email := "b@x.com" }],
    groups := [{ gid := 80, name := "Team", type_ := "collab", owner := 1,
                 collaborators := [1, 2] }],
    tasks := [{ mkTask 800 2 (some 80) with done := true },
              { mkTask 801 1 none with done := true }],
    deletedTasks := [] }

/-- Group 90 is owned by user 2; user 3 is the collaborator candidate.  User 1
is a stranger to the group. -/
def dbC9 : DB :=
  { users := [{ uid := 1, name := "Alice", email := "a@x.com" },
              { uid := 2, name := "Bob", email := "b@x.com" },
              { uid := 3, name := "Carol", email := "c@x.com" }],
    groups := [{ gid := 90, name := "Team", type_ := "collab", owner := 2,
                 collaborators := [2] }],
    tasks := [],
    deletedTasks := [] }

/-- A store holding one collaborative group owned by user 1 (owner correctly
listed), for exercising the serverless group update and membership routes. -/
def dbC10 : DB :=
  { users := [{ uid := 1, name := "Alice", email := "a@x.com" },
              { uid := 2, name := "Bob", email := "b@x.com" }],
    groups := [{ gid := 11, name := "Team", type_ := "collab", owner := 1,
                 collaborators := [1] }],
    tasks := [],
    deletedTasks := [] }

/-! Bridging lemmas between the Bool-valued Mongo filters and their
propositional readings. -/

theorem groupVisible_iff (db : DB) (u : Nat) (og : Option Nat) :
    groupVisible db u og = true ↔
      ∃ g, g ∈ db.groups ∧ (g.owner = u ∨ u ∈ g.collaborators) ∧ og = some g.gid := by
  cases og with
  | none => simp [groupVisible]
  | some gv =>
    simp only [groupVisible, visibleGroupIds, visibleGroups]
    simp only [List.elem_eq_mem, decide_eq_true_eq, List.mem_map, List.mem_filter,
      Bool.or_eq_true, beq_iff_eq, Option.some.injEq]
    constructor
    · rintro ⟨g, ⟨hg, hvis⟩, hgid⟩
      exact ⟨g, hg, hvis, hgid.symm⟩
    · rintro ⟨g, hg, hvis, hgid⟩
      exact ⟨g, ⟨hg, hvis⟩, hgid.symm⟩

theorem find?_updateWhere (tid : Nat) (f : Task → Task) (hf : ∀ t, (f t).tid = t.tid)
    (ts : List Task) :
    (updateWhere tid f ts).find? (fun t => t.tid == tid)
      = (ts.find? (fun t => t.tid == tid)).map f := by
  induction ts with
  | nil => rfl
  | cons h tl ih =>
    by_cases hc : h.tid = tid
    · simp [updateWhere, List.find?, hc, hf]
    · have h1 : (h.tid == tid) = false := by simp [hc]
      have h2 : ((if (h.tid == tid) = true then f h else h).tid == tid) = false := by
        simp [h1]
      simp only [updateWhere, List.map_cons, List.find?, h1, h2, Bool.false_eq_true,
        if_false]
      simpa only [updateWhere] using ih

/-- C1: for every user U the /api/data aggregation never returns a task that
is owned by a different user and sits in a group U neither owns nor
collaborates on — in either implementation of the route: any returned task
not owned by U lies in a group U owns or collaborates on. -/
theorem C1_visibility_no_leak (db : DB) (u : Nat) (t : Task)
    (hmem : t ∈ getDataTasks_backend db u ∨ t ∈ getDataTasks_serverless db u)
    (hown : t.owner ≠ u) :
    ∃ g, g ∈ db.groups ∧ (g.owner = u ∨ u ∈ g.collaborators) ∧ t.group = some g.gid := by
  rcases hmem with h | h
  · rw [getDataTasks_backend, List.mem_filter] at h
    obtain ⟨-, hcond⟩ := h
    simp only [Bool.and_eq_true, Bool.or_eq_true, beq_iff_eq] at hcond
    rcases hcond.2 with ⟨howner, -⟩ | hvis
    · exact absurd howner hown
    · exact (groupVisible_iff db u t.group).mp hvis
  · rw [getDataTasks_serverless, List.mem_filter] at h
    obtain ⟨-, hcond⟩ := h
    simp only [Bool.or_eq_true, beq_iff_eq] at hcond
    rcases hcond with howner | hvis
    · exact absurd howner hown
    · exact (groupVisible_iff db u t.group).mp hvis

theorem C1_visibility_no_leak_witness :
    ∃ g, g ∈ dbW1.groups ∧ (g.owner = 1 ∨ 1 ∈ g.collaborators) ∧
      (mkTask 100 2 (some 10)).group = some g.gid :=
  C1_visibility_no_leak dbW1 1 (mkTask 100 2 (some 10)) (Or.inl (by decide)) (by decide)

/-- C2 counterexample: task 200 is Active and owned by user 1, but assigned
to group 20 which user 1 cannot see — and the backend /api/data aggregation
does not return it, refuting "every Active task owned by U is included
regardless of which group it is assigned to". -/
theorem C2_counterexample :
    mkTask 200 1 (some 20) ∈ dbC2.tasks ∧
    (mkTask 200 1 (some 20)).isDeleted = false ∧
    (mkTask 200 1 (some 20)).owner = 1 ∧
    mkTask 200 1 (some 20) ∉ getDataTasks_backend dbC2 1 := by
  refine ⟨by decide, by decide, by decide, by decide⟩

/-- C2 (amended): the backend aggregation returns exactly the non-tombstoned
tasks that are either owned-by-U-and-ungrouped or in a group U owns or
collaborates on — an Active task owned by U but assigned to a group U cannot
see is excluded; the serverless aggregation returns exactly the stored tasks
that are owned by U or in a visible group (its store holds only live
tasks). -/
theorem C2_visibleTasks_exact (db : DB) (u : Nat) (t : Task) :
    (t ∈ getDataTasks_backend db u ↔
      t ∈ db.tasks ∧ t.isDeleted = false ∧
        ((t.owner = u ∧ t.group = none) ∨
         ∃ g, g ∈ db.groups ∧ (g.owner = u ∨ u ∈ g.collaborators) ∧ t.group = some g.gid)) ∧
    (t ∈ getDataTasks_serverless db u ↔
      t ∈ db.tasks ∧
        (t.owner = u ∨
         ∃ g, g ∈ db.groups ∧ (g.owner = u ∨ u ∈ g.collaborators) ∧ t.group = some g.gid)) := by
  constructor
  · rw [getDataTasks_backend, List.mem_filter]
    simp only [Bool.and_eq_true, Bool.or_eq_true, beq_iff_eq, Bool.not_eq_true',
      groupVisible_iff, and_assoc]
  · rw [getDataTasks_serverless, List.mem_filter]
    simp only [Bool.or_eq_true, beq_iff_eq, groupVisible_iff]

/-- C3 counterexample: user 1 is neither the owner of task 300 (owned by
user 2) nor a member of any group — the store holds no groups at all — yet
the backend update handler accepts user 1's request and overwrites the
task's name. -/
theorem C3_counterexample :
    (mkTask 300 2 none).owner = 2 ∧ (1 : Nat) ≠ 2 ∧ dbC3.groups = [] ∧
    updateTask_backend dbC3 1 300 reqC3 =
      .ok { dbC3 with tasks := [{ mkTask 300 2 none with name := "hijacked" }] } :=
  ⟨rfl, by decide, rfl, rfl⟩

/-- C3 (amended): no task mutation re-validates any relationship between the
acting user and the task.  The backend update, soft-delete and undo handlers
and the serverless update handler return identical results for every pair of
acting users, and each succeeds whenever the task exists, whoever calls it. -/
theorem C3_no_mutation_authorization (db : DB) (u1 u2 tid : Nat) (req : UpdateReq)
    (now : Nat) (t : Task) (hfind : findTask db tid = some t) :
    updateTask_backend db u1 tid req = updateTask_backend db u2 tid req ∧
    deleteTask_backend db u1 tid now = deleteTask_backend db u2 tid now ∧
    undoTask_backend db u1 tid now = undoTask_backend db u2 tid now ∧
    updateTask_serverless db u1 tid req = updateTask_serverless db u2 tid req ∧
    (∃ db2, updateTask_backend db u1 tid req = .ok db2) ∧
    (∃ db2, deleteTask_backend db u1 tid now = .ok db2) ∧
    (∃ db2, undoTask_backend db u1 tid now = .ok db2) := by
  refine ⟨rfl, rfl, rfl, rfl, ?_, ?_, ?_⟩
  · simp only [updateTask_backend, hfind]
    exact ⟨_, rfl⟩
  · simp only [deleteTask_backend, hfind]
    exact ⟨_, rfl⟩
  · simp only [undoTask_backend, hfind]
    exact ⟨_, rfl⟩

theorem C3_no_mutation_authorization_witness :
    updateTask_backend dbC3 1 300 reqC3 = updateTask_backend dbC3 2 300 reqC3 ∧
    (∃ db2, updateTask_backend dbC3 1 300 reqC3 = .ok db2) := by
  have h := C3_no_mutation_authorization dbC3 1 2 300 reqC3 5 (mkTask 300 2 none) rfl
  exact ⟨h.1, h.2.2.2.2.1⟩

/-- C4 counterexample: task 400 was tombstoned at time 0, so its 10-minute
undo window ends at 600000 ms; at request time 601000 the backend undo
handler still succeeds and reactivates the task instead of failing. -/
theorem C4_counterexample :
    (0 + 10 * 60 * 1000 : Nat) ≤ 601000 ∧
    findTask dbC4 400 =
      some { mkTask 400 1 none with isDeleted := true, deletedAt := some 0 } ∧
    undoTask_backend dbC4 1 400 601000 = .ok { dbC4 with tasks := [mkTask 400 1 none] } :=
  ⟨by decide, rfl, rfl⟩

/-- C4 (amended): the backend undo handler consults neither the clock nor any
expiry stamp: its result is the same at every request time; whenever the task
exists, undo succeeds — arbitrarily long after deletion — setting
`isDeleted = false` and clearing `deletedAt`; it fails with 404 (NotFound)
exactly when the task record is absent. -/
theorem C4_undo_no_expiry (db : DB) (u tid now now2 : Nat) (t : Task)
    (hfind : findTask db tid = some t) :
    undoTask_backend db u tid now = undoTask_backend db u tid now2 ∧
    undoTask_backend db u tid now =
      .ok { db with tasks := updateWhere tid reactivate db.tasks } ∧
    findTask { db with tasks := updateWhere tid reactivate db.tasks } tid
      = some { t with isDeleted := false, deletedAt := none } ∧
    (∀ db2, findTask db2 tid = none → undoTask_backend db2 u tid now = .error 404) := by
  refine ⟨rfl, ?_, ?_, ?_⟩
  · simp only [undoTask_backend, hfind]
  · show (updateWhere tid _ db.tasks).find? (fun t2 => t2.tid == tid) = _
    rw [find?_updateWhere tid reactivate (fun t2 => rfl),
      show db.tasks.find? (fun t2 => t2.tid == tid) = some t from hfind]
    rfl
  · intro db2 h
    simp only [undoTask_backend, h]

theorem C4_undo_no_expiry_witness :
    undoTask_backend dbC4 1 400 601000 = undoTask_backend dbC4 1 400 0 ∧
    undoTask_backend dbC4 1 400 601000 =
      .ok { dbC4 with tasks := updateWhere 400 reactivate dbC4.tasks } := by
  have h := C4_undo_no_expiry dbC4 1 400 601000 0
    { mkTask 400 1 none with isDeleted := true, deletedAt := some 0 } rfl
  exact ⟨h.1, h.2.1⟩

/-- C5: soft-deleting an Active task and undoing before the 10-minute window
elapses restores the very same record (same id, found under the same key) to
the Active state with identical name, date, time, priority, done flag, owner,
group and creation timestamp (backend in-place tombstone lifecycle). -/
theorem C5_softDelete_undo_roundtrip (db : DB) (u1 u2 tid delTime undoTime : Nat)
    (t : Task) (hfind : findTask db tid = some t) (hactive : t.isDeleted = false)
    (hwin : undoTime < delTime + 10 * 60 * 1000) :
    ∃ db1 db2,
      deleteTask_backend db u1 tid delTime = .ok db1 ∧
      undoTask_backend db1 u2 tid undoTime = .ok db2 ∧
      findTask db2 tid = some { t with isDeleted := false, deletedAt := none } ∧
      ({ t with isDeleted := false, deletedAt := none } : Task).name = t.name ∧
      ({ t with isDeleted := false, deletedAt := none } : Task).date = t.date ∧
      ({ t with isDeleted := false, deletedAt := none } : Task).time = t.time ∧
      ({ t with isDeleted := false, deletedAt := none } : Task).priority = t.priority ∧
      ({ t with isDeleted := false, deletedAt := none } : Task).done = t.done ∧
      ({ t with isDeleted := false, deletedAt := none } : Task).owner = t.owner ∧
      ({ t with isDeleted := false, deletedAt := none } : Task).group = t.group ∧
      ({ t with isDeleted := false, deletedAt := none } : Task).createdAt = t.createdAt ∧
      ({ t with isDeleted := false, deletedAt := none } : Task).tid = t.tid ∧
      ({ t with isDeleted := false, deletedAt := none } : Task).isDeleted = false := by
  have hfind1 : findTask { db with tasks := updateWhere tid (tombstone delTime) db.tasks } tid
      = some (tombstone delTime t) := by
    show (updateWhere tid (tombstone delTime) db.tasks).find? (fun t2 => t2.tid == tid) = _
    rw [find?_updateWhere tid (tombstone delTime) (fun t2 => rfl),
      show db.tasks.find? (fun t2 => t2.tid == tid) = some t from hfind]
    rfl
  have hdel : deleteTask_backend db u1 tid delTime =
      .ok { db with tasks := updateWhere tid (tombstone delTime) db.tasks } := by
    simp only [deleteTask_backend, hfind]
  have hundo : undoTask_backend { db with tasks := updateWhere tid (tombstone delTime) db.tasks } u2 tid undoTime =
      .ok { db with tasks := updateWhere tid reactivate (updateWhere tid (tombstone delTime) db.tasks) } := by
    simp only [undoTask_backend, hfind1]
  refine ⟨_, _, hdel, hundo, ?_, rfl, rfl, rfl, rfl, rfl, rfl, rfl, rfl, rfl, rfl⟩
  · show (updateWhere tid reactivate
        (updateWhere tid (tombstone delTime) db.tasks)).find? (fun t2 => t2.tid == tid) = _
    rw [find?_updateWhere tid reactivate (fun t2 => rfl),
      show (updateWhere tid (tombstone delTime) db.tasks).find? (fun t2 => t2.tid == tid) =
        some (tombstone delTime t) from hfind1]
    rfl

theorem C5_softDelete_undo_roundtrip_witness :
    taskC5.isDeleted = false ∧ (2000 : Nat) < 1000 + 10 * 60 * 1000 ∧
    ∃ db1 db2,
      deleteTask_backend dbC5 1 500 1000 = .ok db1 ∧
      undoTask_backend db1 1 500 2000 = .ok db2 ∧
      findTask db2 500 = some { taskC5 with isDeleted := false, deletedAt := none } := by
  have h := C5_softDelete_undo_roundtrip dbC5 1 1 500 1000 2000 taskC5 rfl rfl (by decide)
  obtain ⟨db1, db2, h1, h2, h3, -⟩ := h
  exact ⟨rfl, by decide, db1, db2, h1, h2, h3⟩

theorem ungroupTasksIn_tids (gid : Nat) (ts : List Task) :
    (ungroupTasksIn gid ts).map (fun t => t.tid) = ts.map (fun t => t.tid) := by
  induction ts with
  | nil => rfl
  | cons h tl ih =>
    simp only [ungroupTasksIn, List.map_cons] at ih ⊢
    congr 1
    by_cases hc : h.group = some gid <;> simp [hc]

theorem ungroupTasksIn_no_ref (gid : Nat) (ts : List Task) (t : Task)
    (ht : t ∈ ungroupTasksIn gid ts) : t.group ≠ some gid := by
  obtain ⟨t2, -, rfl⟩ := List.mem_map.mp ht
  by_cases hc : t2.group = some gid
  · simp [hc]
  · simp [hc]

/-- C6 counterexample: on a store where user 2 owns group 60 containing task
600, the serverless deletion handler removes the group record FIRST and only
afterwards ungroups the tasks — the reverse of the claimed
ungroup-then-delete order. -/
theorem C6_counterexample :
    deleteGroup_serverless dbC6 60 2 =
      .ok ({ dbC6 with groups := [], tasks := [mkTask 600 2 none] },
           [Effect.removeGroup 60, Effect.ungroupTasks 60]) ∧
    [Effect.removeGroup 60, Effect.ungroupTasks 60] ≠
      [Effect.ungroupTasks 60, Effect.removeGroup 60] :=
  ⟨rfl, by decide⟩

/-- C6 (amended): the backend deletion handler ungroups the referencing tasks
and then removes the group record; the serverless handler performs the same
two writes in the reverse order (group-record removal first).  In both, a
successful deletion destroys no task — the resulting task collection is the
original one with referencing tasks ungrouped, keeping every task id — and no
remaining task references the group. -/
theorem C6_group_delete_order (db : DB) (gid u : Nat) (g : Group)
    (hb : findGroup db gid = some g) (hown : g.owner = u)
    (hs : db.groups.find? (fun g2 => g2.gid == gid && g2.owner == u) = some g) :
    deleteGroup_backend db gid u =
      .ok ({ db with tasks := ungroupTasksIn gid db.tasks, groups := db.groups.filter (fun g2 => g2.gid != gid) },
           [Effect.ungroupTasks gid, Effect.removeGroup gid]) ∧
    deleteGroup_serverless db gid u =
      .ok ({ db with tasks := ungroupTasksIn gid db.tasks, groups := db.groups.filter (fun g2 => g2.gid != gid) },
           [Effect.removeGroup gid, Effect.ungroupTasks gid]) ∧
    (ungroupTasksIn gid db.tasks).map (fun t => t.tid) = db.tasks.map (fun t => t.tid) ∧
    (∀ t, t ∈ ungroupTasksIn gid db.tasks → t.group ≠ some gid) := by
  refine ⟨?_, ?_, ungroupTasksIn_tids gid db.tasks, fun t ht => ungroupTasksIn_no_ref gid db.tasks t ht⟩
  · simp only [deleteGroup_backend, hb, hown, bne_self_eq_false, Bool.false_eq_true,
      if_false, ite_false]
  · simp only [deleteGroup_serverless, hs]

theorem C6_group_delete_order_witness :
    deleteGroup_backend dbC6 60 2 =
      .ok ({ dbC6 with tasks := ungroupTasksIn 60 dbC6.tasks, groups := dbC6.groups.filter (fun g2 => g2.gid != 60) },
           [Effect.ungroupTasks 60, Effect.removeGroup 60]) ∧
    (ungroupTasksIn 60 dbC6.tasks).map (fun t => t.tid) = dbC6.tasks.map (fun t => t.tid) := by
  have h := C6_group_delete_order dbC6 60 2
    { gid := 60, name := "Sprint", type_ := "collab", owner := 2, collaborators := [2] }
    rfl rfl rfl
  exact ⟨h.1, h.2.2.1⟩

/-- C7: in both update handlers a partial request changes the stored group
only when it explicitly carries the group field, and every field omitted from
the request keeps its prior stored value — so an update supplying only a new
priority leaves group and date (and every other field) unchanged. -/
theorem C7_partial_update_frame (db : DB) (u tid : Nat) (req : UpdateReq) (t : Task)
    (hfind : findTask db tid = some t) :
    (∀ db2, updateTask_backend db u tid req = .ok db2 →
      ∃ t2, findTask db2 tid = some t2 ∧
        (req.name = none → t2.name = t.name) ∧
        (req.date = none → t2.date = t.date) ∧
        (req.time = none → t2.time = t.time) ∧
        (req.priority = none → t2.priority = t.priority) ∧
        (req.done = none → t2.done = t.done) ∧
        (req.groupId = none → t2.group = t.group) ∧
        (t2.group ≠ t.group → req.groupId ≠ none)) ∧
    (∀ db2, updateTask_serverless db u tid req = .ok db2 →
      ∃ t2, findTask db2 tid = some t2 ∧
        (req.name = none → t2.name = t.name) ∧
        (req.date = none → t2.date = t.date) ∧
        (req.time = none → t2.time = t.time) ∧
        (req.priority = none → t2.priority = t.priority) ∧
        (req.done = none → t2.done = t.done) ∧
        (req.groupId = none → t2.group = t.group) ∧
        (t2.group ≠ t.group → req.groupId ≠ none)) := by
  constructor
  · intro db2 h
    simp only [updateTask_backend, hfind, Except.ok.injEq] at h
    subst h
    have hft : findTask { db with tasks := updateWhere tid (applyTaskUpdate_backend req) db.tasks } tid
        = some (applyTaskUpdate_backend req t) := by
      show (updateWhere tid (applyTaskUpdate_backend req) db.tasks).find? (fun t3 => t3.tid == tid) = _
      rw [find?_updateWhere tid (applyTaskUpdate_backend req) (fun t3 => rfl),
        show db.tasks.find? (fun t3 => t3.tid == tid) = some t from hfind]
      rfl
    refine ⟨applyTaskUpdate_backend req t, hft, ?_, ?_, ?_, ?_, ?_, ?_, ?_⟩
    · intro h1; simp [applyTaskUpdate_backend, h1]
    · intro h1; simp [applyTaskUpdate_backend, h1]
    · intro h1; simp [applyTaskUpdate_backend, h1]
    · intro h1; simp [applyTaskUpdate_backend, h1]
    · intro h1; simp [applyTaskUpdate_backend, h1]
    · intro h1; rfl
    · exact fun h1 => absurd rfl h1
  · intro db2 h
    simp only [updateTask_serverless, hfind, Except.ok.injEq] at h
    subst h
    have hft : findTask { db with tasks := updateWhere tid (applyTaskUpdate_serverless req) db.tasks } tid
        = some (applyTaskUpdate_serverless req t) := by
      show (updateWhere tid (applyTaskUpdate_serverless req) db.tasks).find? (fun t3 => t3.tid == tid) = _
      rw [find?_updateWhere tid (applyTaskUpdate_serverless req) (fun t3 => rfl),
        show db.tasks.find? (fun t3 => t3.tid == tid) = some t from hfind]
      rfl
    refine ⟨applyTaskUpdate_serverless req t, hft, ?_, ?_, ?_, ?_, ?_, ?_, ?_⟩
    · intro h1; simp [applyTaskUpdate_serverless, applyTaskUpdate_backend, h1]
    · intro h1; simp [applyTaskUpdate_serverless, applyTaskUpdate_backend, h1]
    · intro h1; simp [applyTaskUpdate_serverless, applyTaskUpdate_backend, h1]
    · intro h1; simp [applyTaskUpdate_serverless, applyTaskUpdate_backend, h1]
    · intro h1; simp [applyTaskUpdate_serverless, applyTaskUpdate_backend, h1]
    · intro h1; simp [applyTaskUpdate_serverless, h1]
    · intro h1 h2; exact h1 (by simp [applyTaskUpdate_serverless, h2])

theorem C7_partial_update_frame_witness :
    reqC7.priority = some "High" ∧ reqC7.groupId = none ∧ reqC7.date = none ∧
    ∃ t2, findTask { dbC7 with tasks := updateWhere 700 (applyTaskUpdate_serverless reqC7) dbC7.tasks } 700 = some t2 ∧
      t2.group = some 10 ∧ t2.date = "2025-03-03" := by
  have h := (C7_partial_update_frame dbC7 1 700 reqC7
      { mkTask 700 1 (some 10) with priority := "Low", date := "2025-03-03" } rfl).2
    { dbC7 with tasks := updateWhere 700 (applyTaskUpdate_serverless reqC7) dbC7.tasks } rfl
  obtain ⟨t2, hf, -, hdate, -, -, -, hgroup, -⟩ := h
  exact ⟨rfl, rfl, rfl, t2, hf, hgroup rfl, hdate rfl⟩

theorem clearFilter_backend_iff (db : DB) (u : Nat) (t : Task) :
    clearFilter_backend db u t = true ↔
      t.done = true ∧ t.isDeleted = false ∧
        ((t.owner = u ∧ t.group = none) ∨
         ∃ g, g ∈ db.groups ∧ (g.owner = u ∨ u ∈ g.collaborators) ∧ t.group = some g.gid) := by
  simp only [clearFilter_backend, Bool.and_eq_true, Bool.or_eq_true, beq_iff_eq,
    Bool.not_eq_true', groupVisible_iff, and_assoc]

theorem map_tids_of_preserves (f : Task → Task) (hf : ∀ t, (f t).tid = t.tid)
    (ts : List Task) :
    (ts.map f).map (fun t => t.tid) = ts.map (fun t => t.tid) := by
  induction ts with
  | nil => rfl
  | cons h tl ih =>
    simp only [List.map_cons]
    rw [hf]
    congr 1

/-- C8 counterexample: with group 80 shared by owner 1 and collaborator 2,
task 800 (done, owned by user 2, in the shared group) is visible to user 1,
yet user 1's serverless clear-completed leaves it untouched; meanwhile task
801 (done, owned by user 1) is permanently removed from the task collection
with no tombstone written — not a soft delete. -/
theorem C8_counterexample :
    ({ mkTask 800 2 (some 80) with done := true }) ∈ getDataTasks_serverless dbC8 1 ∧
    ({ mkTask 800 2 (some 80) with done := true }).done = true ∧
    clearCompleted_serverless dbC8 1 =
      { dbC8 with tasks := [{ mkTask 800 2 (some 80) with done := true }] } ∧
    (clearCompleted_serverless dbC8 1).deletedTasks = [] ∧
    ({ mkTask 801 1 none with done := true }) ∉ (clearCompleted_serverless dbC8 1).tasks :=
  ⟨by decide, rfl, rfl, rfl, by decide⟩

/-- C8 (amended): the backend clear-completed soft-deletes in place — the
task id list is preserved, every done, non-tombstoned task visible to the
user (owned-ungrouped or in a visible group, including tasks owned by others
in shared groups) is tombstoned, and every other task is untouched.  The
serverless variant instead permanently removes exactly the caller's own done
tasks (grouped or not), leaves every task owned by someone else untouched,
and writes no recovery tombstone. -/
theorem C8_clearCompleted (db : DB) (u now : Nat) (t : Task) (ht : t ∈ db.tasks) :
    ((clearCompleted_backend db u now).tasks.map (fun t2 => t2.tid)
      = db.tasks.map (fun t2 => t2.tid)) ∧
    (t.done = true → t.isDeleted = false →
      ((t.owner = u ∧ t.group = none) ∨
       (∃ g, g ∈ db.groups ∧ (g.owner = u ∨ u ∈ g.collaborators) ∧ t.group = some g.gid)) →
      tombstone now t ∈ (clearCompleted_backend db u now).tasks) ∧
    (¬(t.done = true ∧ t.isDeleted = false ∧
        ((t.owner = u ∧ t.group = none) ∨
         ∃ g, g ∈ db.groups ∧ (g.owner = u ∨ u ∈ g.collaborators) ∧ t.group = some g.gid)) →
      t ∈ (clearCompleted_backend db u now).tasks) ∧
    ((clearCompleted_serverless db u).tasks
      = db.tasks.filter (fun t2 => !(t2.owner == u && t2.done))) ∧
    ((clearCompleted_serverless db u).deletedTasks = db.deletedTasks) ∧
    (t ∈ (clearCompleted_serverless db u).tasks ↔ t ∈ db.tasks ∧ ¬(t.owner = u ∧ t.done = true)) := by
  refine ⟨?_, ?_, ?_, rfl, rfl, ?_⟩
  · exact map_tids_of_preserves _
      (fun t2 => by by_cases hc : clearFilter_backend db u t2 = true <;> simp [hc, tombstone])
      db.tasks
  · intro hdone hdel hvis
    have hc : clearFilter_backend db u t = true :=
      (clearFilter_backend_iff db u t).mpr ⟨hdone, hdel, hvis⟩
    exact List.mem_map.mpr ⟨t, ht, by simp [hc]⟩
  · intro hn
    have hc : ¬(clearFilter_backend db u t = true) :=
      fun hcc => hn ((clearFilter_backend_iff db u t).mp hcc)
    exact List.mem_map.mpr ⟨t, ht, by rw [if_neg hc]⟩
  · show t ∈ db.tasks.filter (fun t2 => !(t2.owner == u && t2.done)) ↔ _
    rw [List.mem_filter]
    simp only [Bool.not_eq_true', Bool.and_eq_true, beq_iff_eq, Bool.and_eq_false_iff]
    constructor
    · rintro ⟨hmem, hfalse⟩
      refine ⟨hmem, ?_⟩
      rintro ⟨ho, hd⟩
      rcases hfalse with h1 | h1
      · exact absurd (beq_iff_eq.mpr ho) (by simp [h1])
      · exact absurd hd (by simp [h1])
    · rintro ⟨hmem, hnot⟩
      refine ⟨hmem, ?_⟩
      by_cases ho : t.owner = u
      · right
        by_cases hd : t.done = true
        · exact absurd ⟨ho, hd⟩ hnot
        · simpa using hd
      · left
        simpa using ho

theorem C8_clearCompleted_witness :
    tombstone 5 { mkTask 800 2 (some 80) with done := true }
      ∈ (clearCompleted_backend dbC8 1 5).tasks ∧
    (clearCompleted_serverless dbC8 1).deletedTasks = dbC8.deletedTasks := by
  have h := C8_clearCompleted dbC8 1 5 { mkTask 800 2 (some 80) with done := true } (by decide)
  refine ⟨h.2.1 rfl rfl ?_, h.2.2.2.2.1⟩
  exact Or.inr ⟨{ gid := 80, name := "Team", type_ := "collab", owner := 1,
                  collaborators := [1, 2] }, by decide, by decide, rfl⟩

/-- C9 counterexample: user 1 is not the owner of group 90 (owned by user 2),
yet the serverless add-collaborator handler accepts user 1's request and adds
user 3 to the group's collaborator set instead of failing. -/
theorem C9_counterexample :
    (1 : Nat) ≠ 2 ∧
    findGroup dbC9 90 =
      some { gid := 90, name := "Team", type_ := "collab", owner := 2, collaborators := [2] } ∧
    addCollaborator_serverless dbC9 90 1 "c@x.com" =
      .ok { dbC9 with groups := [{ gid := 90, name := "Team", type_ := "collab", owner := 2,
                                   collaborators := [2, 3] }] } :=
  ⟨by decide, rfl, rfl⟩

/-- C9 (amended): whenever the acting user is not the group's owner, the
backend handler fails with 401 before performing any write, for every target
email, leaving the collaborator set unchanged; the serverless handler never
consults the acting user at all — its outcome is identical for every pair of
acting users, so a non-owner can grow a collaborative group's collaborator
set. -/
theorem C9_addCollaborator_owner_only (db : DB) (gid u u2 : Nat) (email : String)
    (g : Group) (hg : findGroup db gid = some g) (hown : g.owner ≠ u) :
    addCollaborator_backend db gid u email = .error 401 ∧
    addCollaborator_serverless db gid u email = addCollaborator_serverless db gid u2 email := by
  refine ⟨?_, rfl⟩
  have hb : (g.owner != u) = true := bne_iff_ne.mpr hown
  simp only [addCollaborator_backend, hg, hb, if_true]

theorem C9_addCollaborator_owner_only_witness :
    addCollaborator_backend dbC9 90 1 "c@x.com" = .error 401 ∧
    addCollaborator_serverless dbC9 90 1 "c@x.com" =
      addCollaborator_serverless dbC9 90 7 "c@x.com" := by
  exact C9_addCollaborator_owner_only dbC9 90 1 7 "c@x.com"
    { gid := 90, name := "Team", type_ := "collab", owner := 2, collaborators := [2] }
    rfl (by decide)

/-- C10 counterexample: the backend group-creation route seeds an empty
collaborator list even for a collaborative group, so the freshly created
group does not contain its owner in its collaborator set. -/
theorem C10_counterexample :
    (createGroup_backend "Team" "collab" 1 7).type_ = "collab" ∧
    (createGroup_backend "Team" "collab" 1 7).collaborators = [] ∧
    (createGroup_backend "Team" "collab" 1 7).owner ∉
      (createGroup_backend "Team" "collab" 1 7).collaborators :=
  ⟨rfl, rfl, by decide⟩

/-- C10 (amended): the serverless creation establishes the membership
invariant (personal kind seeds no collaborators, collaborative kind seeds the
owner); the serverless retype re-establishes it (to personal clears the set,
to collaborative inserts the acting owner); the serverless add-collaborator
write preserves it, and the collaborator-removal write preserves it provided
the removed user is not the group's owner.  The backend creation route,
however, seeds an empty collaborator list for every kind, so a
backend-created collaborative group does not list its owner. -/
theorem C10_group_membership_invariant (name ty : String) (o gid target u : Nat)
    (nf : Option String) (g : Group) :
    groupInvariant (createGroup_serverless name ty o gid) ∧
    (createGroup_backend name ty o gid).collaborators = [] ∧
    (g.owner = u → groupInvariant (applyGroupUpdate u nf (some "personal") g)) ∧
    (g.owner = u → groupInvariant (applyGroupUpdate u nf (some "collab") g)) ∧
    (groupInvariant g → groupInvariant (addToSetCollab gid target g)) ∧
    (groupInvariant g → g.owner ≠ target → groupInvariant (pullCollaborator gid target g)) := by
  refine ⟨⟨?_, ?_⟩, rfl, ?_, ?_, ?_, ?_⟩
  · intro h
    have h2 : ty = "personal" := h
    show (if ty == "collab" then [o] else []) = []
    rw [h2]
    rfl
  · intro h
    have h2 : ty = "collab" := h
    show o ∈ (if ty == "collab" then [o] else [])
    rw [h2]
    simp
  · intro _
    constructor
    · intro _
      simp [applyGroupUpdate]
    · intro hc
      simp [applyGroupUpdate, truthy] at hc
  · intro hown
    subst hown
    constructor
    · intro hc
      by_cases hmem : g.owner ∈ g.collaborators <;>
        simp [applyGroupUpdate, truthy, hmem] at hc
    · intro _
      by_cases hmem : g.owner ∈ g.collaborators <;>
        simp [applyGroupUpdate, truthy, hmem]
  · intro hinv
    unfold addToSetCollab
    by_cases hc : (g.gid == gid && g.type_ == "collab") = true
    · rw [if_pos hc]
      have hty : g.type_ = "collab" := by
        simp only [Bool.and_eq_true, beq_iff_eq] at hc
        exact hc.2
      by_cases hm : (g.collaborators.contains target) = true
      · rw [if_pos hm]
        exact hinv
      · rw [if_neg hm]
        constructor
        · intro hp
          rw [hty] at hp
          exact absurd hp (by decide)
        · intro _
          exact List.mem_append_left [target] (hinv.2 hty)
    · rw [if_neg hc]
      exact hinv
  · intro hinv hne
    unfold pullCollaborator
    by_cases hc : (g.gid == gid) = true
    · rw [if_pos hc]
      constructor
      · intro hp
        simp [hinv.1 hp]
      · intro hcol
        exact List.mem_filter.mpr ⟨hinv.2 hcol, by simpa using hne⟩
    · rw [if_neg hc]
      exact hinv

theorem C10_group_membership_invariant_witness :
    groupInvariant (createGroup_serverless "Team" "collab" 1 11) ∧
    groupInvariant (applyGroupUpdate 1 none (some "collab")
      { gid := 11, name := "Team", type_ := "collab", owner := 1, collaborators := [1] }) ∧
    groupInvariant (addToSetCollab 11 2
      { gid := 11, name := "Team", type_ := "collab", owner := 1, collaborators := [1] }) := by
  have h := C10_group_membership_invariant "Team" "collab" 1 11 2 1 none
    { gid := 11, name := "Team", type_ := "collab", owner := 1, collaborators := [1] }
  refine ⟨h.1, h.2.2.2.1 rfl, h.2.2.2.2.1 ⟨?_, ?_⟩⟩
  · intro hp
    exact absurd hp (by decide)
  · intro _
    simp

end TodoApp
